import Mathlib

/-!
Shallow embedding of the `gleam_finder` crate (file `src/lib.rs`).

Rust strings are modelled as their UTF-8 byte sequences (`List Nat`), so that
byte-index slicing — which in Rust panics when an index is not a character
boundary — can be modelled faithfully.  Fallible slicing returns
`Except Unit`, where `.error ()` stands for a Rust panic.  The stateful
while-loops of the crate are modelled as fueled iterations whose fuel is the
byte length of the input; every loop body strictly shrinks its string, so the
fuel is never exhausted (lemmas `stripStep_shrinks`, `aposStep_shrinks`,
`numRefStep_shrinks` below), and `loopF_fuel` shows the result does not
depend on the exact fuel once it dominates the length.
-/

set_option maxRecDepth 100000

deriving instance DecidableEq for Except

namespace GleamFinder

/-- Rust `str`/`String` values, as their UTF-8 byte sequences. -/
abbrev RStr := List Nat

/-- UTF-8 encoding of a unicode scalar value (what `char::to_string` pushes). -/
def utf8Encode (c : Nat) : List Nat :=
  if c < 128 then [c]
  else if c < 2048 then [192 + c / 64, 128 + c % 64]
  else if c < 65536 then [224 + c / 4096, 128 + c / 64 % 64, 128 + c % 64]
  else [240 + c / 262144, 128 + c / 4096 % 64, 128 + c / 64 % 64, 128 + c % 64]

/-- Transcription of a Rust string literal into its byte sequence. -/
def strBytes (s : String) : RStr := (s.data.map (fun c => utf8Encode c.toNat)).flatten

/-- `isLeadOf p s` holds when byte sequence `p` is a prefix of `s`. -/
def isLeadOf : RStr → RStr → Bool
  | [], _ => true
  | _ :: _, [] => false
  | p :: ps, x :: xs => (p == x) && isLeadOf ps xs

/-- Rust `str::find(pat)`: byte index of the first (leftmost) occurrence of
`pat`, `none` when absent.  An empty pattern matches at index 0. -/
def strFind : RStr → RStr → Option Nat
  | [], pat => if isLeadOf pat [] then some 0 else none
  | x :: t, pat =>
    if isLeadOf pat (x :: t) then some 0
    else (strFind t pat).map (· + 1)

theorem isLeadOf_length {p s : RStr} (h : isLeadOf p s = true) : p.length ≤ s.length := by
  induction p generalizing s with
  | nil => exact Nat.zero_le _
  | cons a ps ih =>
    cases s with
    | nil => simp [isLeadOf] at h
    | cons b xs =>
      simp only [isLeadOf, Bool.and_eq_true] at h
      simpa [List.length] using Nat.succ_le_succ (ih h.2)

theorem strFind_le {h p : RStr} {i : Nat} (hf : strFind h p = some i) : i ≤ h.length := by
  induction h generalizing i with
  | nil =>
    simp only [strFind] at hf
    split at hf
    · cases hf; exact Nat.zero_le _
    · cases hf
  | cons x t ih =>
    simp only [strFind] at hf
    split at hf
    · cases hf; exact Nat.zero_le _
    · cases he : strFind t p with
      | none => rw [he] at hf; cases hf
      | some j =>
        rw [he] at hf
        cases hf
        exact Nat.succ_le_succ (ih he)

theorem strFind_lead {h p : RStr} {i : Nat} (hf : strFind h p = some i) :
    isLeadOf p (h.drop i) = true := by
  induction h generalizing i with
  | nil =>
    simp only [strFind] at hf
    split at hf
    · cases hf; assumption
    · cases hf
  | cons x t ih =>
    simp only [strFind] at hf
    split at hf
    · cases hf; assumption
    · cases he : strFind t p with
      | none => rw [he] at hf; cases hf
      | some j =>
        rw [he] at hf
        cases hf
        simpa [List.drop] using ih he

theorem strFind_bound {h p : RStr} {i : Nat} (hf : strFind h p = some i) :
    i + p.length ≤ h.length := by
  have h1 := strFind_le hf
  have h2 := isLeadOf_length (strFind_lead hf)
  rw [List.length_drop] at h2
  omega

theorem strFind_none_drop {h p : RStr} (hf : strFind h p = none) (k : Nat) :
    strFind (h.drop k) p = none := by
  induction h generalizing k with
  | nil => cases k <;> simpa using hf
  | cons x t ih =>
    cases k with
    | zero => simpa using hf
    | succ k =>
      simp only [strFind] at hf
      split at hf
      · cases hf
      · cases he : strFind t p with
        | none => exact ih he k
        | some j => rw [he] at hf; cases hf

/-! ## string_tools (lib.rs lines 22-95) -/

/-- `string_tools::get_all_before_strict`. -/
def get_all_before_strict (t b : RStr) : Option RStr :=
  (strFind t b).map (fun i => t.take i)

/-- `string_tools::get_all_after_strict`. -/
def get_all_after_strict (t e : RStr) : Option RStr :=
  (strFind t e).map (fun i => t.drop (i + e.length))

/-- `string_tools::get_idx_before_strict`. -/
def get_idx_before_strict (t b : RStr) : Option Nat := strFind t b

/-- `string_tools::get_idx_before`: index of the first occurrence, or the
whole length when absent. -/
def get_idx_before (t b : RStr) : Nat := (strFind t b).getD t.length

/-- `string_tools::get_idx_after_strict`. -/
def get_idx_after_strict (t e : RStr) : Option Nat :=
  (strFind t e).map (· + e.length)

/-- `string_tools::get_all_between_strict`. -/
def get_all_between_strict (t b e : RStr) : Option RStr :=
  (get_all_after_strict t b).bind (fun s => get_all_before_strict s e)

/-- `string_tools::get_idx_between_strict`. -/
def get_idx_between_strict (t b e : RStr) : Option (Nat × Nat) :=
  (get_idx_after_strict t b).bind
    (fun a => (get_idx_before_strict (t.drop a) e).map (fun k => (a, a + k)))

/-- `string_tools::get_all_before` (non-strict): whole text when absent. -/
def get_all_before (t b : RStr) : RStr :=
  t.take ((strFind t b).getD t.length)

/-- `string_tools::get_all_after` (non-strict): empty text when absent. -/
def get_all_after (t e : RStr) : RStr :=
  match strFind t e with
  | some i => t.drop (i + e.length)
  | none => []

/-- `string_tools::get_all_between` (non-strict). -/
def get_all_between (t b e : RStr) : RStr :=
  get_all_before (get_all_after t b) e

/-- Allowed bytes of `string_tools::get_url`: ASCII alphanumerics and
`-`, `/`, `_` (all other characters stop the scan, and the first byte of a
multi-byte character is never in this set). -/
def isUrlByte (b : Nat) : Bool :=
  (decide (48 ≤ b) && decide (b ≤ 57)) || (decide (65 ≤ b) && decide (b ≤ 90)) ||
    (decide (97 ≤ b) && decide (b ≤ 122)) || (b == 45) || (b == 47) || (b == 95)

/-- Length of the leading run of URL bytes. -/
def urlLen : RStr → Nat
  | [] => 0
  | c :: t => if isUrlByte c then urlLen t + 1 else 0

/-- `string_tools::get_url`: longest prefix of URL characters. -/
def get_url (url : RStr) : RStr := url.take (urlLen url)

example : get_all_before_strict (strBytes "testlol") (strBytes "lol") =
    some (strBytes "test") := by decide
example : get_all_after_strict (strBytes "testloltestlol") (strBytes "lol") =
    some (strBytes "testlol") := by decide
example : get_all_between_strict (strBytes "str5str1str2str3str4str5str2str3str5")
    (strBytes "str2") (strBytes "str5") = some (strBytes "str3str4") := by decide
example : get_all_before (strBytes "str1str2") (strBytes "str3") =
    strBytes "str1str2" := by decide
example : get_all_after (strBytes "str1str2") (strBytes "str3") = [] := by decide
example : get_all_between (strBytes "str1str2str3str4") (strBytes "str1")
    (strBytes "str4") = strBytes "str2str3" := by decide
example : get_all_between (strBytes "str1str2str3str4") (strBytes "str0")
    (strBytes "str4") = [] := by decide
example : get_url (strBytes "/competition/something-wtf-giveaway and more") =
    strBytes "/competition/something-wtf-giveaway" := by decide

/-! ## Fueled iteration

Each while-loop of the crate repeatedly rewrites a string until its step no
longer applies.  `loopF step fuel d` runs at most `fuel` steps; all three
step functions strictly shrink the string, so fuel `d.length` can never be
exhausted, and `loopF_fuel` shows any fuel at least `d.length` computes the
same fixpoint. -/

def loopF (step : RStr → Option RStr) : Nat → RStr → RStr
  | 0, d => d
  | f + 1, d =>
    match step d with
    | some d2 => loopF step f d2
    | none => d

theorem loopF_fuel (step : RStr → Option RStr)
    (hdec : ∀ d d2, step d = some d2 → d2.length < d.length) :
    ∀ f f' d, d.length ≤ f → d.length ≤ f' →
      loopF step f d = loopF step f' d := by
  intro f
  induction f with
  | zero =>
    intro f' d h h'
    have hd : d = [] := List.length_eq_zero.mp (Nat.le_zero.mp h)
    subst hd
    cases f' with
    | zero => rfl
    | succ k =>
      simp only [loopF]
      cases hs : step [] with
      | none => rfl
      | some d2 => exact absurd (hdec [] d2 hs) (by simp)
  | succ f ih =>
    intro f' d h h'
    cases f' with
    | zero =>
      have hd : d = [] := List.length_eq_zero.mp (Nat.le_zero.mp h')
      subst hd
      simp only [loopF]
      cases hs : step [] with
      | none => rfl
      | some d2 => exact absurd (hdec [] d2 hs) (by simp)
    | succ k =>
      simp only [loopF]
      cases hs : step d with
      | none => rfl
      | some d2 =>
        have hl := hdec d d2 hs
        exact ih k d2 (by omega) (by omega)

/-! ## Integer parsing (Rust `str::parse::<u64>` / `str::parse::<u32>`) -/

/-- Rust unsigned-integer parsing: an optional leading `+`, then a non-empty
run of ASCII digits; overflow past the type bound is an error. -/
def parseUInt (bound : Nat) (s : RStr) : Option Nat :=
  let s2 := if isLeadOf [43] s then s.drop 1 else s
  if s2.isEmpty then none
  else if s2.all (fun b => decide (48 ≤ b) && decide (b ≤ 57)) then
    let v := s2.foldl (fun acc b => acc * 10 + (b - 48)) 0
    if v < bound then some v else none
  else none

def parseU64 : RStr → Option Nat := parseUInt (2 ^ 64)

def parseU32 : RStr → Option Nat := parseUInt (2 ^ 32)

/-- `std::char::from_u32` succeeds exactly on unicode scalar values. -/
def validScalar (c : Nat) : Bool :=
  decide (c < 55296) || (decide (57344 ≤ c) && decide (c < 1114112))

/-! ## gleam::clear_description (lib.rs lines 250-279) -/

/-- The Rust literal `"\\u003c"` (six characters). -/
def uescOpen : RStr := strBytes "\\u003c"

/-- The Rust literal `"\\u003e"` (six characters). -/
def uescClose : RStr := strBytes "\\u003e"

/-- The Rust literal `"\\u003"` (five characters). -/
def uescHead : RStr := strBytes "\\u003"

/-- The Rust literal `"&#39;"` (five characters). -/
def aposEntity : RStr := strBytes "&#39;"

/-- The Rust literal `"\\u0026#"` (seven characters). -/
def ampHash : RStr := strBytes "\\u0026#"

/-- One iteration of the first loop of `clear_description`: excise the first
`< ... >` span together with its delimiters. -/
def stripStep (d : RStr) : Option RStr :=
  (get_idx_between_strict d uescOpen uescClose).map
    (fun p => d.take (p.1 - 6) ++ d.drop (p.2 + 6))

/-- One iteration of the `&#39;` loop: five `String::remove` calls and one
`String::insert` replace the entity with an apostrophe (byte 39). -/
def aposStep (d : RStr) : Option RStr :=
  (strFind d aposEntity).map (fun i => d.take i ++ 39 :: d.drop (i + 5))

/-- One iteration of the numeric-character-reference loop: read the text
between `&#` and `;` off the span indices (the Rust code reads the same
sub-slice with `get_all_between_strict` and re-derives the indices with
`get_idx_between_strict(..).unwrap()`, see `get_all_between_strict_eq_idx`),
parse it as `u32`, and splice in the character when it is a scalar value;
a failed parse or an invalid code stops the loop (`none`). -/
def numRefStep (d : RStr) : Option RStr :=
  match get_idx_between_strict d ampHash [59] with
  | none => none
  | some (a, b2) =>
    match parseU32 ((d.drop a).take (b2 - a)) with
    | none => none
    | some code =>
      if validScalar code then
        some (d.take (a - 7) ++ utf8Encode code ++ d.drop (b2 + 1))
      else none

/-- The substring form and the index form of `between_strict` agree. -/
theorem get_all_between_strict_eq_idx (t b e : RStr) :
    get_all_between_strict t b e =
      (get_idx_between_strict t b e).map (fun p => (t.drop p.1).take (p.2 - p.1)) := by
  simp only [get_all_between_strict, get_idx_between_strict, get_all_after_strict,
    get_idx_after_strict, get_all_before_strict, get_idx_before_strict]
  cases h1 : strFind t b with
  | none => rfl
  | some i =>
    simp only [Option.map, Option.bind]
    cases h2 : strFind (t.drop (i + b.length)) e with
    | none => rfl
    | some k =>
      have hk : i + b.length + k - (i + b.length) = k := by omega
      simp only [Option.map, hk]

theorem get_idx_between_strict_facts {t b e : RStr} {a b2 : Nat}
    (h : get_idx_between_strict t b e = some (a, b2)) :
    b.length ≤ a ∧ a ≤ b2 ∧ b2 + e.length ≤ t.length := by
  simp only [get_idx_between_strict, get_idx_after_strict, get_idx_before_strict] at h
  cases h1 : strFind t b with
  | none => rw [h1] at h; cases h
  | some i =>
    rw [h1] at h
    simp only [Option.map, Option.bind] at h
    cases h2 : strFind (t.drop (i + b.length)) e with
    | none => rw [h2] at h; cases h
    | some k =>
      rw [h2] at h
      simp only [Option.map, Option.some.injEq, Prod.mk.injEq] at h
      obtain ⟨ha, hb2⟩ := h
      have hib := strFind_bound h1
      have hke := strFind_bound h2
      rw [List.length_drop] at hke
      omega

theorem utf8Encode_length_le (c : Nat) : (utf8Encode c).length ≤ 4 := by
  unfold utf8Encode
  split
  · simp
  · split
    · simp
    · split <;> simp

theorem stripStep_shrinks (d d2 : RStr) (h : stripStep d = some d2) :
    d2.length < d.length := by
  simp only [stripStep] at h
  cases hi : get_idx_between_strict d uescOpen uescClose with
  | none => rw [hi] at h; cases h
  | some p =>
    rw [hi] at h
    simp only [Option.map, Option.some.injEq] at h
    obtain ⟨hlo, hmid, hhi⟩ := get_idx_between_strict_facts hi
    have h6 : uescOpen.length = 6 := by decide
    have h6e : uescClose.length = 6 := by decide
    rw [h6] at hlo
    rw [h6e] at hhi
    subst h
    simp only [List.length_append, List.length_take, List.length_drop]
    omega

theorem aposStep_shrinks (d d2 : RStr) (h : aposStep d = some d2) :
    d2.length < d.length := by
  simp only [aposStep] at h
  cases hi : strFind d aposEntity with
  | none => rw [hi] at h; cases h
  | some i =>
    rw [hi] at h
    simp only [Option.map, Option.some.injEq] at h
    have hb := strFind_bound hi
    have h5 : aposEntity.length = 5 := by decide
    rw [h5] at hb
    subst h
    simp only [List.length_append, List.length_take, List.length_cons, List.length_drop]
    omega

theorem numRefStep_shrinks (d d2 : RStr) (h : numRefStep d = some d2) :
    d2.length < d.length := by
  unfold numRefStep at h
  split at h
  · cases h
  · rename_i a b2 hi
    split at h
    · cases h
    · rename_i code hp
      split at h
      · simp only [Option.some.injEq] at h
        obtain ⟨hlo, hmid, hhi⟩ := get_idx_between_strict_facts hi
        have h7 : ampHash.length = 7 := by decide
        have h1 : ([59] : RStr).length = 1 := by decide
        rw [h7] at hlo
        rw [h1] at hhi
        have henc := utf8Encode_length_le code
        subst h
        simp only [List.length_append, List.length_take, List.length_drop]
        omega
      · cases h

/-- First loop of `clear_description`: repeatedly strip `< ... >`. -/
def stripTags (d : RStr) : RStr := loopF stripStep d.length d

/-- Third loop of `clear_description`: replace each `&#39;` by an apostrophe. -/
def fixApos (d : RStr) : RStr := loopF aposStep d.length d

/-- Fourth loop of `clear_description`: resolve `&#<code>;` references. -/
def fixNumRefs (d : RStr) : RStr := loopF numRefStep d.length d

/-- `gleam::clear_description`: strip escaped tags, truncate at a dangling
`\u003` escape, resolve the apostrophe entity, then numeric references. -/
def clear_description (d : RStr) : RStr :=
  let d1 := stripTags d
  let d2 := d1.take (get_idx_before d1 uescHead)
  fixNumRefs (fixApos d2)

-- The two description examples of the crate test `test_description`
-- (lib.rs lines 471-478); byte 39 is the apostrophe, bytes
-- [240, 159, 150, 164] are the UTF-8 form of U+1F5A4 (code 128420).
example :
    clear_description (strBytes
      "\\u003ch2\\u003eRetweet to Win Giveaway of $1000 TROY Tokens! \\u0026#128420;\\u003c/h2\\u003e") =
    strBytes "Retweet to Win Giveaway of $1000 TROY Tokens! " ++ [240, 159, 150, 164] := by
  decide

example :
    clear_description (strBytes
      "\\u003cp\\u003eGet a chance to win one of the 10 prizes worth $50 each equivalent in Matic Tokens ($500 = 12773.35)! It&#39;s a fun game... but you know that.\\u003c/p\\u003e\\u003cp\\u003e\\u003c/p\\u003e\\u003cdiv style=\\") =
    strBytes "Get a chance to win one of the 10 prizes worth $50 each equivalent in Matic Tokens ($500 = 12773.35)! It" ++
      39 :: strBytes "s a fun game... but you know that." := by
  decide

/-! ## gleam::get_gleam_id (lib.rs lines 282-289)

Rust indexes strings by bytes, and `&url[a..b]` panics when `a` or `b` is
not a character boundary (or is out of range).  `rustSlice` models the slice
with `.error ()` standing for the panic. -/

/-- A byte at which a UTF-8 string may be split: anything but a
continuation byte (`(b as i8) >= -0x40` in the Rust core library). -/
def isBoundaryByte (b : Nat) : Bool := decide (b < 128) || decide (192 ≤ b)

/-- Rust `str::is_char_boundary`. -/
def isCharBoundary (bs : RStr) (i : Nat) : Bool :=
  (i == 0) || (i == bs.length) || ((bs[i]?).map isBoundaryByte).getD false

/-- Rust `&s[a..b]`: the bytes of the range, or a panic. -/
def rustSlice (bs : RStr) (a b : Nat) : Except Unit RStr :=
  if decide (a ≤ b) && decide (b ≤ bs.length) && isCharBoundary bs a &&
      isCharBoundary bs b then
    .ok ((bs.drop a).take (b - a))
  else
    .error ()

/-- Second accepted shape of `get_gleam_id` (the `else if` arm):
`url.len() >= 23 && &url[0..17] == "https://gleam.io/" && &url[22..23] == "/"`,
with `&&` short-circuiting left to right. -/
def gleamIdShapeB (url : RStr) : Except Unit (Option RStr) :=
  if 23 ≤ url.length then
    match rustSlice url 0 17 with
    | .error e => .error e
    | .ok s =>
      if s = strBytes "https://gleam.io/" then
        match rustSlice url 22 23 with
        | .error e => .error e
        | .ok s2 =>
          if s2 = [47] then (rustSlice url 17 22).map some
          else .ok none
      else .ok none
  else .ok none

/-- `gleam::get_gleam_id`: first the `/competitions/` shape
(`url.len() == 37 && &url[0..30] == "https://gleam.io/competitions/"`),
then the short shape, else `None`. -/
def get_gleam_id (url : RStr) : Except Unit (Option RStr) :=
  if url.length = 37 then
    match rustSlice url 0 30 with
    | .error e => .error e
    | .ok s =>
      if s = strBytes "https://gleam.io/competitions/" then
        (rustSlice url 30 35).map some
      else gleamIdShapeB url
  else gleamIdShapeB url

-- The crate test `get_gleam_urls` (lib.rs lines 460-468).
example : get_gleam_id (strBytes "https://gleam.io/competitions/lSq1Q-s") =
    .ok (some (strBytes "lSq1Q")) := by decide
example : get_gleam_id (strBytes "https://gleam.io/2zAsX/bitforex-speci") =
    .ok (some (strBytes "2zAsX")) := by decide
example : get_gleam_id (strBytes "https://gleam.io/7qHd6/sorteo") =
    .ok (some (strBytes "7qHd6")) := by decide
example : get_gleam_id (strBytes "https://gleam.io/3uSs9/taylor-moon") =
    .ok (some (strBytes "3uSs9")) := by decide
example : get_gleam_id (strBytes "https://gleam.io/OWMw8/sorteo-de-1850") =
    .ok (some (strBytes "OWMw8")) := by decide
example : get_gleam_id (strBytes "https://gleam.io/competitions/CEoiZ-h") =
    .ok (some (strBytes "CEoiZ")) := by decide
example : get_gleam_id (strBytes "https://gleam.io/7qHd6/-") =
    .ok (some (strBytes "7qHd6")) := by decide

/-! ## gleam::Giveaway (lib.rs lines 293-437)

The struct has exactly the seven fields of the Rust source.  `fetch` is
parameterised over the transport layer as `net : RStr → Option RStr`
(`minreq::get(..).send()` composed with `response.as_str()`): `none` covers
both a failed request and a body that does not decode as text, in which case
the Rust function falls through to its final `None`. -/

structure Giveaway where
  gleam_id : RStr
  entry_count : Option Nat
  start_date : Nat
  end_date : Nat
  update_date : Nat
  name : RStr
  description : RStr
deriving DecidableEq

/-- Rust literal `"starts_at&quot;:"`. -/
def startsMark : RStr := strBytes "starts_at&quot;:"

/-- Rust literal `"ends_at&quot;:"`. -/
def endsMark : RStr := strBytes "ends_at&quot;:"

/-- Rust literal `",&quot;"`. -/
def sepMark : RStr := strBytes ",&quot;"

/-- Rust literal `"&quot;"`. -/
def quotMark : RStr := strBytes "&quot;"

/-- Rust literal `"name&quot;:&quot;"`. -/
def nameMark : RStr := strBytes "name&quot;:&quot;"

/-- Rust literal `"description&quot;:&quot;"`. -/
def descMark : RStr := strBytes "description&quot;:&quot;"

/-- Rust literal `"initEntryCount("`. -/
def entryOpenMark : RStr := strBytes "initEntryCount("

/-- Extraction of `start_date` (lines 327-331): the text between
`starts_at&quot;:` and `,&quot;`, parsed as `u64`; marker absence and parse
failure both yield `none` and abort `fetch`. -/
def startsOf (body : RStr) : Option Nat :=
  (get_all_between_strict body startsMark sepMark).bind parseU64

/-- Extraction of `end_date` (lines 332-336). -/
def endsOf (body : RStr) : Option Nat :=
  (get_all_between_strict body endsMark sepMark).bind parseU64

/-- Extraction of `entry_count` (lines 337-345): marker absence or parse
failure yield `none` as the field value, never aborting. -/
def entryCountOf (body : RStr) : Option Nat :=
  (get_all_between_strict body entryOpenMark (strBytes ")")).bind parseU64

/-- Extraction of `name` (line 346). -/
def nameOf (body : RStr) : Option RStr :=
  get_all_between_strict body nameMark quotMark

/-- Extraction of the raw `description` (line 347). -/
def descOf (body : RStr) : Option RStr :=
  get_all_between_strict body descMark quotMark

/-- Body of `Giveaway::fetch` once a page text is available
(lib.rs lines 326-360): the four required extractions abort with `none`
(the `?` / early `return None`), `entry_count` never does, `description`
passes through `clear_description`, `update_date` is the wall-clock time
supplied by the caller. -/
def parseBody (id : RStr) (now : Nat) (body : RStr) : Option Giveaway :=
  match startsOf body with
  | none => none
  | some start_date =>
    match endsOf body with
    | none => none
    | some end_date =>
      let entry_count := entryCountOf body
      match nameOf body with
      | none => none
      | some name =>
        match descOf body with
        | none => none
        | some description =>
          some { gleam_id := id, entry_count := entry_count,
                 start_date := start_date, end_date := end_date,
                 update_date := now, name := name,
                 description := clear_description description }

/-- The canonical, slug-free URL rebuilt from a giveaway id — the
reconstruction written at lib.rs lines 314, 222 and 383. -/
def canonicalUrl (id : RStr) : RStr :=
  strBytes "https://gleam.io/" ++ id ++ strBytes "/-"

/-- `Giveaway::fetch` (lib.rs lines 309-363): normalize the URL first and
return `None` before any request when it matches neither shape; then fetch
the canonical URL and parse the body.  A panic in `get_gleam_id`
propagates. -/
def fetch (net : RStr → Option RStr) (now : Nat) (url : RStr) :
    Except Unit (Option Giveaway) :=
  match get_gleam_id url with
  | .error e => .error e
  | .ok none => .ok none
  | .ok (some giveaway_id) =>
    match net (canonicalUrl giveaway_id) with
    | none => .ok none
    | some body => .ok (parseBody giveaway_id now body)

/-- `Giveaway::get_url` (lib.rs lines 382-384). -/
def Giveaway.get_url (g : Giveaway) : RStr :=
  canonicalUrl g.gleam_id

/-- `Giveaway::is_active` (lib.rs lines 422-427), with the wall clock passed
in as `now` (seconds since the unix epoch). -/
def Giveaway.is_active (g : Giveaway) (now : Nat) : Bool :=
  decide (g.end_date < now)

/-- `Giveaway::update` (lib.rs lines 430-436): re-fetch the canonical URL;
replace the record on success, keep it (after a warning print) on failure. -/
def Giveaway.update (net : RStr → Option RStr) (now : Nat) (g : Giveaway) :
    Except Unit Giveaway :=
  match fetch net now (Giveaway.get_url g) with
  | .error e => .error e
  | .ok (some g2) => .ok g2
  | .ok none => .ok g

/-! ## The two link-discovery loops (lib.rs lines 153-159 and 205-218) -/

/-- Rust literal `"\"r\"><a href=\""`. -/
def googleOpenMark : RStr := strBytes "\"r\"><a href=\""

/-- Rust literal `"\" onmousedown=\"return rwt("`. -/
def googleCloseMark : RStr := strBytes "\" onmousedown=\"return rwt("

/-- One iteration of the `google::search` result loop (lines 155-158):
extract the next URL between the two markers, then advance the scan by
`body = get_all_after(body, url)`; `none` when the loop guard fails. -/
def searchStep (body : RStr) : Option (RStr × RStr) :=
  (get_all_between_strict body googleOpenMark googleCloseMark).map
    (fun url => (url, get_all_after body url))

/-- Rust literal `"https://gleam.io/"`. -/
def gleamRootMark : RStr := strBytes "https://gleam.io/"

/-- One iteration of the `intermediary::resolve` scanning loop
(lines 207-209, the loop guard and cursor advance): while the text after
`https://gleam.io/` is non-empty, read the URL characters that follow it and
advance by `body = get_all_after(body, url)`. -/
def resolveStep (body : RStr) : Option (RStr × RStr) :=
  if get_all_after body gleamRootMark ≠ [] then
    let url := get_url (get_all_after body gleamRootMark)
    some (url, get_all_after body url)
  else none

/-! # Claims -/

/-- Claim C10: for every Giveaway record and every current time `now`
(seconds since the unix epoch), `is_active` returns `true` exactly when the
record's `end_date` is strictly less than `now` — i.e. it reports `true` for
giveaways that have already ended, the inverse of what its name suggests. -/
theorem is_active_iff_ended (g : Giveaway) (now : Nat) :
    Giveaway.is_active g now = true ↔ g.end_date < now := by
  simp [Giveaway.is_active]

/-- Claim C6 (code bug): `get_gleam_id` is claimed total — never an error on
any well-formed string, including multi-byte ones — but on the valid UTF-8
URL `https://gleam.io/aaaaé` (bytes 195, 169 are `é`) the slice
`&url[22..23]` hits the middle of the two-byte character and panics. -/
theorem get_gleam_id_panics_on_multibyte :
    get_gleam_id (strBytes "https://gleam.io/aaaa" ++ [195, 169]) = .error () := by
  decide

/-- Claim C5 (code bug): the repeated-extraction loops are claimed to
advance the scan position past each match, terminating on all finite input.
But when the extracted match is empty, `get_all_after(body, "")` returns the
whole body: on a google results page containing `"r"><a href="" onmousedown="return rwt(`
the search loop re-extracts the empty URL forever, and in
`intermediary::resolve` a page where a disallowed character directly follows
`https://gleam.io/` stalls the same way — one iteration returns the very
same body, so the loop never terminates. -/
theorem scan_loops_can_stall :
    searchStep (strBytes "\"r\"><a href=\"\" onmousedown=\"return rwt(") =
      some ([], strBytes "\"r\"><a href=\"\" onmousedown=\"return rwt(") ∧
    resolveStep (strBytes "https://gleam.io/ x") =
      some ([], strBytes "https://gleam.io/ x") := by
  decide

/-- Claim C2 counterexample: `get_all_between` is claimed to return empty
text whenever either marker is absent, but on the crate test input
(lib.rs line 117) the end marker `str6` is absent and the result is the
non-empty suffix `str2str3str4`. -/
theorem get_all_between_missing_end_nonempty :
    get_all_between (strBytes "str1str2str3str4") (strBytes "str1")
        (strBytes "str6") = strBytes "str2str3str4" ∧
    strFind (strBytes "str1str2str3str4") (strBytes "str6") = none ∧
    strBytes "str2str3str4" ≠ ([] : RStr) := by
  decide

/-- Claim C2 as amended: `get_all_between` returns empty text whenever the
begin marker is absent; when only the end marker is absent it instead
returns the whole (possibly non-empty) suffix after the begin marker. -/
theorem get_all_between_missing_marker (t b e : RStr) :
    (strFind t b = none → get_all_between t b e = []) ∧
    (strFind t e = none → get_all_between t b e = get_all_after t b) := by
  constructor
  · intro h
    simp [get_all_between, get_all_after, get_all_before, h]
  · intro h
    simp only [get_all_between, get_all_after]
    cases hb : strFind t b with
    | none =>
      simp [get_all_before]
    | some i =>
      have hd := strFind_none_drop h (i + b.length)
      simp [get_all_before, hd]

theorem get_all_between_missing_marker_witness :
    get_all_between (strBytes "abc") (strBytes "zz") (strBytes "yy") = [] ∧
    get_all_between (strBytes "abc") (strBytes "zz") (strBytes "yy") =
      get_all_after (strBytes "abc") (strBytes "zz") :=
  ⟨(get_all_between_missing_marker (strBytes "abc") (strBytes "zz")
      (strBytes "yy")).1 (by decide),
   (get_all_between_missing_marker (strBytes "abc") (strBytes "zz")
      (strBytes "yy")).2 (by decide)⟩

/-- Claim C1 counterexample: `fetch` is claimed to fail with an
InvalidResponse kind kept distinct from the Timeout kind, but the function
returns a plain `Option`: the failure on a URL of unrecognized shape and the
failure on a transport timeout for a well-formed URL are the very same value
`None` — no distinct failure kinds exist. -/
theorem fetch_failure_values_coincide :
    fetch (fun _ => none) 0 (strBytes "https://example.com/x") = .ok none ∧
    fetch (fun _ => none) 0 (strBytes "https://gleam.io/abcde/-") = .ok none := by
  decide

/-- Claim C1 as amended: on every URL whose shape `get_gleam_id` rejects,
`fetch` returns `None` — the single failure value of its `Option` result,
which does not distinguish InvalidResponse from Timeout — and does so
without consulting the transport at all (the result is the same under every
transport function). -/
theorem fetch_unrecognized_shape_no_network (net net2 : RStr → Option RStr)
    (now : Nat) (url : RStr) (h : get_gleam_id url = .ok none) :
    fetch net now url = .ok none ∧ fetch net now url = fetch net2 now url := by
  constructor <;> simp [fetch, h]

theorem fetch_unrecognized_shape_no_network_witness :
    fetch (fun _ => none) 3 (strBytes "https://example.com/x") = .ok none ∧
    fetch (fun _ => none) 3 (strBytes "https://example.com/x") =
      fetch (fun _ => some []) 3 (strBytes "https://example.com/x") :=
  fetch_unrecognized_shape_no_network (fun _ => none) (fun _ => some [])
    3 (strBytes "https://example.com/x") (by decide)

/-- A stale record used to exercise `Giveaway::update`. -/
def staleGiveaway : Giveaway :=
  { gleam_id := strBytes "abcde", entry_count := none, start_date := 1,
    end_date := 2, update_date := 3, name := strBytes "O",
    description := strBytes "P" }

/-- A minimal page body containing all four required markers plus an entry
counter. -/
def demoBody : RStr :=
  strBytes "starts_at&quot;:12,&quot; ends_at&quot;:34,&quot; name&quot;:&quot;N&quot; description&quot;:&quot;D&quot; initEntryCount(3)"

/-- The record `demoBody` parses to at time 7. -/
def demoGiveaway : Giveaway :=
  { gleam_id := strBytes "abcde", entry_count := some 3, start_date := 12,
    end_date := 34, update_date := 7, name := strBytes "N",
    description := strBytes "D" }

/-- Claim C8: `update` on a failed or unparsable re-fetch leaves the record
unchanged (the stale record stays usable), and on a successful re-fetch it
replaces the whole record in place. -/
theorem update_replaces_or_keeps (net : RStr → Option RStr) (now : Nat)
    (g : Giveaway) :
    (fetch net now (Giveaway.get_url g) = .ok none →
      Giveaway.update net now g = .ok g) ∧
    (∀ g2, fetch net now (Giveaway.get_url g) = .ok (some g2) →
      Giveaway.update net now g = .ok g2) := by
  constructor
  · intro h
    simp [Giveaway.update, h]
  · intro g2 h
    simp [Giveaway.update, h]

theorem update_replaces_or_keeps_witness :
    Giveaway.update (fun _ => none) 7 staleGiveaway = .ok staleGiveaway ∧
    Giveaway.update (fun _ => some demoBody) 7 staleGiveaway =
      .ok demoGiveaway :=
  ⟨(update_replaces_or_keeps (fun _ => none) 7 staleGiveaway).1 (by decide),
   (update_replaces_or_keeps (fun _ => some demoBody) 7 staleGiveaway).2
     demoGiveaway (by decide)⟩

/-- Claim C3: the parsing stage of `fetch` yields a record exactly when all
four required extractions (starts_at, ends_at, name, description) succeed —
a fully populated record or nothing — while the optional `entry_count`
never aborts: whatever record is produced carries exactly the optional
entry-count extraction (absent marker or unparsable count give an absent
field, not a failure). -/
theorem parseBody_all_or_nothing (id : RStr) (now : Nat) (body : RStr) :
    ((parseBody id now body).isSome ↔
      (startsOf body).isSome ∧ (endsOf body).isSome ∧
        (nameOf body).isSome ∧ (descOf body).isSome) ∧
    (∀ g, parseBody id now body = some g → g.entry_count = entryCountOf body) := by
  constructor
  · cases hs : startsOf body <;> cases he : endsOf body <;>
      cases hn : nameOf body <;> cases hd : descOf body <;>
        simp [parseBody, hs, he, hn, hd]
  · intro g hg
    unfold parseBody at hg
    split at hg
    · cases hg
    · split at hg
      · cases hg
      · split at hg
        · cases hg
        · split at hg
          · cases hg
          · cases hg
            rfl

theorem parseBody_all_or_nothing_witness :
    (parseBody (strBytes "abcde") 7 demoBody).isSome ∧
    demoGiveaway.entry_count = entryCountOf demoBody :=
  ⟨(parseBody_all_or_nothing (strBytes "abcde") 7 demoBody).1.mpr
      ⟨by decide, by decide, by decide, by decide⟩,
   (parseBody_all_or_nothing (strBytes "abcde") 7 demoBody).2 demoGiveaway
      (by decide)⟩

/-- A page body with the four required markers and no entry-methods data at
all. -/
def noEntryMethodsBody : RStr :=
  strBytes "starts_at&quot;:5,&quot; ends_at&quot;:6,&quot; name&quot;:&quot;W&quot; description&quot;:&quot;X&quot;"

/-- Claim C7 counterexample: the claim says absence of the entry-methods
list aborts the whole record, but a page body containing no entry-methods
list at all — no `entry_type` and no `worth` key anywhere — still yields a
fully constructed record; the parser never reads such keys and the record
type has no entry-methods field to populate. -/
theorem parseBody_succeeds_without_entry_methods :
    parseBody (strBytes "abcde") 0 noEntryMethodsBody =
      some { gleam_id := strBytes "abcde", entry_count := none,
             start_date := 5, end_date := 6, update_date := 0,
             name := strBytes "W", description := strBytes "X" } ∧
    strFind noEntryMethodsBody (strBytes "entry_type") = none ∧
    strFind noEntryMethodsBody (strBytes "worth") = none := by
  decide

/-- Claim C7 as amended: a constructed Giveaway record carries no
entry-method sequence (the struct has only gleam_id, entry_count, the three
dates, name and description); construction needs exactly the name,
description, starts_at and ends_at extractions, so the absence of an
entry-methods list or of entry_type/worth keys never aborts the record. -/
theorem parseBody_requires_only_four_fields (id : RStr) (now : Nat)
    (body : RStr) (hs : (startsOf body).isSome) (he : (endsOf body).isSome)
    (hn : (nameOf body).isSome) (hd : (descOf body).isSome) :
    (parseBody id now body).isSome := by
  obtain ⟨s, hs⟩ := Option.isSome_iff_exists.mp hs
  obtain ⟨e, he⟩ := Option.isSome_iff_exists.mp he
  obtain ⟨n, hn⟩ := Option.isSome_iff_exists.mp hn
  obtain ⟨d, hd⟩ := Option.isSome_iff_exists.mp hd
  simp [parseBody, hs, he, hn, hd]

theorem parseBody_requires_only_four_fields_witness :
    (parseBody (strBytes "abcde") 0 noEntryMethodsBody).isSome :=
  parseBody_requires_only_four_fields (strBytes "abcde") 0 noEntryMethodsBody
    (by decide) (by decide) (by decide) (by decide)

/-- Claim C9: in the numeric-reference phase of description decoding, a
reference whose code parses as `u32` and is a valid unicode scalar value is
replaced by the single corresponding character — processing then continues
on the rewritten string — while a code that is not a valid code point stops
the processing with the string returned as is: a graceful partial decode,
never a failure.  The last conjunct runs the crate test: the full decode
replaces reference 128420 by the single character U+1F5A4 (bytes
240, 159, 150, 164). -/
theorem numeric_refs_decoded_or_stop :
    (∀ d a b2 code, get_idx_between_strict d ampHash [59] = some (a, b2) →
      parseU32 ((d.drop a).take (b2 - a)) = some code →
      (validScalar code = true →
        fixNumRefs d =
          fixNumRefs (d.take (a - 7) ++ utf8Encode code ++ d.drop (b2 + 1))) ∧
      (validScalar code = false → fixNumRefs d = d)) ∧
    clear_description (strBytes
        "\\u003ch2\\u003eRetweet to Win Giveaway of $1000 TROY Tokens! \\u0026#128420;\\u003c/h2\\u003e") =
      strBytes "Retweet to Win Giveaway of $1000 TROY Tokens! " ++
        [240, 159, 150, 164] := by
  constructor
  · intro d a b2 code hi hp
    have hfacts := get_idx_between_strict_facts hi
    have h7 : ampHash.length = 7 := by decide
    have h1 : ([59] : RStr).length = 1 := by decide
    rw [h7, h1] at hfacts
    have hstep : numRefStep d = (if validScalar code = true then
        some (d.take (a - 7) ++ utf8Encode code ++ d.drop (b2 + 1))
      else none) := by
      simp [numRefStep, hi, hp]
    constructor
    · intro hv
      have hstep2 : numRefStep d =
          some (d.take (a - 7) ++ utf8Encode code ++ d.drop (b2 + 1)) := by
        rw [hstep, if_pos hv]
      have hshrink := numRefStep_shrinks d _ hstep2
      obtain ⟨k, hk⟩ : ∃ k, d.length = k + 1 := ⟨d.length - 1, by omega⟩
      show loopF numRefStep d.length d = _
      rw [hk]
      simp only [loopF, hstep2]
      exact loopF_fuel numRefStep numRefStep_shrinks k _ _ (by omega) (Nat.le_refl _)
    · intro hv
      have hstep2 : numRefStep d = none := by
        rw [hstep, if_neg (by simp [hv])]
      show loopF numRefStep d.length d = d
      cases hl : d.length with
      | zero => rfl
      | succ k => simp only [loopF, hstep2]
  · decide

theorem numeric_refs_decoded_or_stop_witness :
    fixNumRefs (strBytes "\\u0026#65;") = fixNumRefs (strBytes "A") ∧
    fixNumRefs (strBytes "\\u0026#55296;") = strBytes "\\u0026#55296;" :=
  ⟨(numeric_refs_decoded_or_stop.1 (strBytes "\\u0026#65;") 7 9 65
      (by decide) (by decide)).1 (by decide),
   (numeric_refs_decoded_or_stop.1 (strBytes "\\u0026#55296;") 7 12 55296
      (by decide) (by decide)).2 (by decide)⟩

/-- ASCII alphanumeric bytes. -/
def isAlnumByte (b : Nat) : Bool :=
  (decide (48 ≤ b) && decide (b ≤ 57)) || (decide (65 ≤ b) && decide (b ≤ 90)) ||
    (decide (97 ≤ b) && decide (b ≤ 122))

theorem isAlnumByte_lt {b : Nat} (h : isAlnumByte b = true) : b < 128 := by
  simp only [isAlnumByte, Bool.or_eq_true, Bool.and_eq_true,
    decide_eq_true_eq] at h
  omega

theorem get_gleam_id_canonical_bytes (a : Nat) (ha : a < 128)
    (b c d e : Nat) :
    get_gleam_id [104, 116, 116, 112, 115, 58, 47, 47, 103, 108, 101, 97,
      109, 46, 105, 111, 47, a, b, c, d, e, 47, 45] =
      .ok (some [a, b, c, d, e]) := by
  have hb : isBoundaryByte a = true := by
    simp only [isBoundaryByte, Bool.or_eq_true, decide_eq_true_eq]
    exact Or.inl ha
  simp [get_gleam_id, gleamIdShapeB, rustSlice, isCharBoundary, hb]
  rfl

/-- Claim C4: identifier normalization is shape-invariant — both accepted
shapes of the `lSq1Q` giveaway normalize to the id `lSq1Q` — and
round-trips: for every 5-character ASCII alphanumeric code, the canonical
URL of that code normalizes back to the same code. -/
theorem get_gleam_id_shape_invariant_roundtrip :
    get_gleam_id (strBytes "https://gleam.io/competitions/lSq1Q-s") =
      .ok (some (strBytes "lSq1Q")) ∧
    get_gleam_id (strBytes "https://gleam.io/lSq1Q/-2-alok-giveaway") =
      .ok (some (strBytes "lSq1Q")) ∧
    ∀ code : RStr, code.length = 5 → (∀ b ∈ code, isAlnumByte b = true) →
      get_gleam_id (canonicalUrl code) = .ok (some code) := by
  refine ⟨by decide, by decide, ?_⟩
  intro code hlen halnum
  obtain ⟨a, b, c, d, e, rfl⟩ : ∃ a b c d e, code = [a, b, c, d, e] := by
    rcases code with _ | ⟨a, _ | ⟨b, _ | ⟨c, _ | ⟨d, _ | ⟨e, _ | ⟨f, t⟩⟩⟩⟩⟩⟩ <;>
      simp only [List.length_cons, List.length_nil] at hlen <;>
      first
        | exact ⟨_, _, _, _, _, rfl⟩
        | omega
  have ha : a < 128 := isAlnumByte_lt (halnum a (by simp))
  have hurl : canonicalUrl [a, b, c, d, e] =
      [104, 116, 116, 112, 115, 58, 47, 47, 103, 108, 101, 97, 109, 46,
        105, 111, 47, a, b, c, d, e, 47, 45] := rfl
  rw [hurl]
  exact get_gleam_id_canonical_bytes a ha b c d e

theorem get_gleam_id_shape_invariant_roundtrip_witness :
    get_gleam_id (canonicalUrl (strBytes "lSq1Q")) =
      .ok (some (strBytes "lSq1Q")) :=
  get_gleam_id_shape_invariant_roundtrip.2.2 (strBytes "lSq1Q")
    (by decide) (by decide)

end GleamFinder
